import Mathlib

/-!
Shallow embedding of the sensu-go backend core under verification:
the agentd Session (src/backend/agentd/session.go), the actions
EventController (src/unnamed/part_001), the Extension validator
(src/unnamed/part_000), and the RBAC authorizer evaluated by the
middleware tests (src/backend/apid/routers/namespaces_test.go).

Go side effects (bus publishes, store calls, ring operations, channel
closes, metric updates) are made explicit as effect traces; Go errors
are an explicit inductive type so that error kinds can be compared;
machine integers that matter (the event timestamp, an int64 compared
with 0) are modelled as Int.
-/

namespace SensuGo

/-- Error kinds of section 7 of the design: not Go types but the
classification used by the store and the actions package. -/
inductive ErrKind
  | invalidArgument
  | notFound
  | internal
  | unauthenticated
  | permissionDenied
  | unavailable
  deriving DecidableEq, Repr

/-- A Go error value as the agentd session code observes it: either an
error carrying one of the store error kinds, or a plain string error as
produced by errors.New and fmt.Errorf. -/
inductive GoError
  | kind (k : ErrKind) (msg : String)
  | str (msg : String)
  deriving DecidableEq, Repr

/-- The Error() method of a Go error: its message string. -/
def GoError.Error : GoError → String
  | .kind _ m => m
  | .str m => m

/-- Whether a Go error still carries the given kind. A plain string
error produced by fmt.Errorf carries no kind. -/
def GoError.isKind : GoError → ErrKind → Bool
  | .kind k _, k2 => k = k2
  | .str _, _ => false

/-- The part of corev2.Check the session code reads: a check may carry a
ProxyEntityName, which triggers proxy entity substitution. -/
structure Check where
  proxyEntityName : String
  deriving DecidableEq, Repr

/-- The part of corev2.Entity the session code reads and writes. -/
structure Entity where
  name : String
  subscriptions : List String
  deriving DecidableEq, Repr

/-- The part of corev2.Event the session and controller code read:
entity (a nilable pointer), the int64 timestamp, the nilable check, and
whether metrics are present. -/
structure Event where
  entity : Option Entity
  timestamp : Int
  check : Option Check
  hasMetrics : Bool
  deriving DecidableEq, Repr

/-- HasCheck from corev2: the event carries a non-nil check. -/
def Event.HasCheck (e : Event) : Bool := e.check.isSome

/-- Modelled from the spec: corev2.GetEntitySubscription is not under
src/; the spec names the implicit subscription entity:<name>. -/
def getEntitySubscription (name : String) : String := "entity:" ++ name

/-- Modelled from the spec: addEntitySubscription, called by
handleKeepalive and handleEvent, is not under src/. The spec says:
ensure Entity.Subscriptions contains entity:<Entity.Name>; if absent,
append. -/
def addEntitySubscription (name : String) (subs : List String) : List String :=
  if getEntitySubscription name ∈ subs then subs else subs ++ [getEntitySubscription name]

/-- Bus topics referenced by the core. -/
inductive Topic
  | keepalive
  | eventRaw
  deriving DecidableEq, Repr

/-- Observable side effects of the embedded code, in program order. -/
inductive Effect
  | publish (topic : Topic) (event : Event)
  | connSend (payload : List Nat)
  | connClose
  | busSubscribe (topic consumer : String)
  | busCancel (topic consumer : String)
  | ringAdd (path value : String)
  | ringRemove (path value : String)
  | gaugeInc (ns : String)
  | gaugeDec (ns : String)
  | closeCheckChannel
  | spawnPump
  | storeGetNamespace (name : String)
  | storeGetEvent (entity check : String)
  | storeDeleteEvent (entity check : String)
  | storeWriteEvent (event : Event)
  deriving DecidableEq, Repr

/-- Whether an effect is a publication to the message bus. -/
def Effect.isPublish : Effect → Bool
  | .publish _ _ => true
  | _ => false

/-- Whether an effect is a send on the agent transport. -/
def Effect.isConnSend : Effect → Bool
  | .connSend _ => true
  | _ => false

/-- Whether an effect writes an event to the store. -/
def Effect.isStoreWrite : Effect → Bool
  | .storeWriteEvent _ => true
  | .storeDeleteEvent _ _ => true
  | _ => false

/-- Embeds Session.handleKeepalive of src/backend/agentd/session.go.
The unmarshal function of the session and the outcome of the bus
publish are parameters; the payload is the received byte slice. The
result is the trace of effects together with the returned error. -/
def handleKeepalive (unmarshal : List Nat → Except GoError Event)
    (publishErr : Option GoError) (payload : List Nat) :
    List Effect × Option GoError :=
  match unmarshal payload with
  | .error e => ([], some e)
  | .ok keepalive =>
    match keepalive.entity with
    | none => ([], some (.str "keepalive does not contain an entity"))
    | some entity =>
      if keepalive.timestamp = 0 then
        ([], some (.str "keepalive contains invalid timestamp"))
      else
        let entity2 : Entity :=
          { entity with subscriptions := addEntitySubscription entity.name entity.subscriptions }
        ([Effect.publish Topic.keepalive { keepalive with entity := some entity2 }], publishErr)

/-- Modelled from the spec: corev2 Event.Validate is not under src/.
The spec says an Event is valid iff Entity is non-null, Timestamp
is greater than 0, and either Check or Metrics is present. -/
def Event.Validate (e : Event) : Option GoError :=
  if e.entity.isNone then some (.str "event must contain an entity")
  else if e.timestamp ≤ 0 then some (.str "timestamp must be greater than zero")
  else if e.check.isNone && !e.hasMetrics then some (.str "event must contain a check or metrics")
  else none

/-- Modelled from the spec: getProxyEntity is not under src/. The spec
says: if the event has a Check with a ProxyEntityName, resolve or
create a proxy Entity in the store and substitute it into the Event.
The store lookup is the getEntity parameter; a missing proxy entity is
created on the fly with the implicit entity subscription. -/
def getProxyEntity (getEntity : String → Except GoError (Option Entity))
    (ev : Event) : Except GoError Event :=
  match ev.check with
  | none => .ok ev
  | some c =>
    if c.proxyEntityName = "" then .ok ev
    else
      match getEntity c.proxyEntityName with
      | .error e => .error e
      | .ok (some proxy) => .ok { ev with entity := some proxy }
      | .ok none =>
        let created : Entity :=
          { name := c.proxyEntityName,
            subscriptions := [getEntitySubscription c.proxyEntityName] }
        .ok { ev with entity := some created }

/-- Modifies the entity of an event by appending the implicit entity
subscription, as both handlers do just before publishing. The event
entity is non-nil at every call site, guarded by the earlier checks. -/
def withEntitySubscription (ev : Event) : Event :=
  match ev.entity with
  | none => ev
  | some ent =>
    let ent2 : Entity :=
      { ent with subscriptions := addEntitySubscription ent.name ent.subscriptions }
    { ev with entity := some ent2 }

/-- Embeds Session.handleEvent of src/backend/agentd/session.go. The
unmarshal function, the entity store lookup used by getProxyEntity and
the outcome of the bus publish are parameters. -/
def handleEvent (unmarshal : List Nat → Except GoError Event)
    (getEntity : String → Except GoError (Option Entity))
    (publishErr : Option GoError) (payload : List Nat) :
    List Effect × Option GoError :=
  match unmarshal payload with
  | .error e => ([], some e)
  | .ok event =>
    match event.Validate with
    | some e => ([], some e)
    | none =>
      match (if event.HasCheck then getProxyEntity getEntity event else .ok event) with
      | .error e => ([], some e)
      | .ok ev2 =>
        ([Effect.publish Topic.eventRaw (withEntitySubscription ev2)], publishErr)

/-- The SessionConfig of src/backend/agentd/session.go (the ring pool
handle is modelled through ring effects rather than stored). -/
structure SessionConfig where
  contentType : String
  namespaceName : String
  agentAddr : String
  agentName : String
  user : String
  subscriptions : List String
  deriving DecidableEq, Repr

/-- The state of a Session that its lifecycle operations touch: whether
the stopping channel and the check channel have been closed, and the
bus subscription handles stashed in the subscriptions channel as pairs
of topic and consumer identity. -/
structure Session where
  cfg : SessionConfig
  stoppingClosed : Bool
  checkChannelClosed : Bool
  pendingSubscriptions : List (String × String)
  deriving DecidableEq, Repr

/-- A Go runtime panic relevant to the session lifecycle: close of an
already closed channel. -/
inductive Panic
  | closeOfClosedChannel
  deriving DecidableEq, Repr

/-- Embeds NewSession of src/backend/agentd/session.go. The store is
the getNamespace parameter. The only side effect before the namespace
validation is the store read itself; on a store error the constructor
returns a fresh error built by fmt.Errorf from the message of the store
error, and performs nothing else. -/
def NewSession (getNamespace : String → Except GoError Unit)
    (cfg : SessionConfig) : Except GoError Session × List Effect :=
  match getNamespace cfg.namespaceName with
  | .error e =>
    (.error (.str ("could not retrieve the namespace " ++ cfg.namespaceName ++ ": " ++ e.Error)),
     [Effect.storeGetNamespace cfg.namespaceName])
  | .ok _ =>
    (.ok { cfg := cfg, stoppingClosed := false, checkChannelClosed := false,
           pendingSubscriptions := [] },
     [Effect.storeGetNamespace cfg.namespaceName])

/-- Modelled from the spec: ringv2.Path is not under src/; the spec
gives Path(namespace, sub) = /rings/<namespace>/<sub> (escaping of the
path components is not modelled). -/
def ringPath (ns sub : String) : String :=
  "/rings/" ++ ns ++ "/" ++ sub

/-- The effect trace of the body of Session.Stop, in program order:
gauge decrement, cancel of every stashed bus subscription, close of the
check channel, and a ring Remove of the agent at the path of every
configured subscription. -/
def stopEffects (cfg : SessionConfig) (stashed : List (String × String)) : List Effect :=
  Effect.gaugeDec cfg.namespaceName ::
    (stashed.map (fun p => Effect.busCancel p.1 p.2) ++
     Effect.closeCheckChannel ::
       cfg.subscriptions.map (fun sub =>
         Effect.ringRemove (ringPath cfg.namespaceName sub) cfg.agentName))

/-- Embeds Session.Stop of src/backend/agentd/session.go. Stop closes
the stopping channel unconditionally; in Go, close of a closed channel
panics, so a second Stop panics. On the first call it joins the pumps
and performs the teardown effects. -/
def Session.Stop (s : Session) : Except Panic (Session × List Effect) :=
  if s.stoppingClosed then .error .closeOfClosedChannel
  else
    let s2 : Session :=
      { s with stoppingClosed := true, checkChannelClosed := true, pendingSubscriptions := [] }
    .ok (s2, stopEffects s.cfg s.pendingSubscriptions)

/-- Embeds the deferred function of Session.recvPump: when the pump
exits it calls Stop only if the stopping channel has not fired yet
(the select with a default branch). -/
def recvPumpTeardown (s : Session) : Except Panic (Session × List Effect) :=
  if s.stoppingClosed then .ok (s, [])
  else s.Stop

/-- The inbound transport messages a session can receive, dispatched by
type as in the handler table of newSessionHandler. -/
inductive Incoming
  | keepalive (payload : List Nat)
  | event (payload : List Nat)
  | other (msgType : String) (payload : List Nat)
  deriving DecidableEq, Repr

/-- The effects of handling one inbound message in recvPump: keepalive
and event frames go to their handlers, anything else is ignored. -/
def handleMessage (unmarshal : List Nat → Except GoError Event)
    (getEntity : String → Except GoError (Option Entity))
    (publishErr : Option GoError) : Incoming → List Effect
  | .keepalive p => (handleKeepalive unmarshal publishErr p).1
  | .event p => (handleEvent unmarshal getEntity publishErr p).1
  | .other _ _ => []

/-- The linearized effect trace of a session run: recvPump handles the
inbound messages delivered before the stopping signal fired (the first
stopAfter of them), then Stop joins the pumps and performs its teardown
effects. Stop returns only after the pumps have exited (the WaitGroup),
so the teardown effects are the final segment of the trace. -/
def sessionRun (s : Session) (unmarshal : List Nat → Except GoError Event)
    (getEntity : String → Except GoError (Option Entity))
    (publishErr : Option GoError) (msgs : List Incoming) (stopAfter : Nat) :
    List Effect :=
  ((msgs.take stopAfter).flatMap (handleMessage unmarshal getEntity publishErr)) ++
    stopEffects s.cfg s.pendingSubscriptions

/-- The state of the subscription rings: the member list at each ring
key path. Modelled from the spec: the ringv2 implementation is not
under src/; Remove drops the value and is idempotent, Add appends. -/
def RingState := String → List String

/-- Applies one effect to the ring state; effects that are not ring
operations leave the rings unchanged. -/
def ringApply (eff : Effect) (rings : RingState) : RingState :=
  match eff with
  | .ringRemove p v => fun q => if q = p then (rings q).filter (fun x => x ≠ v) else rings q
  | .ringAdd p v => fun q => if q = p then rings q ++ [v] else rings q
  | _ => rings

/-- Applies a trace of effects to the ring state, in order. -/
def ringApplyAll (effs : List Effect) (rings : RingState) : RingState :=
  effs.foldl (fun r e => ringApply e r) rings

/-- The error codes of the actions package used by EventController. -/
inductive ActionErrCode
  | invalidArgument
  | internalErr
  | notFound
  deriving DecidableEq, Repr

/-- Embeds EventController.Get of src/unnamed/part_001. The event
store lookup GetEventByEntityCheck is the getEvt parameter, returning
either a store error, no event (nil, nil in Go), or the event. -/
def EventControllerGet (getEvt : String → String → Except GoError (Option Event))
    (entity check : String) : List Effect × Except ActionErrCode Event :=
  if entity = "" ∨ check = "" then ([], .error .invalidArgument)
  else
    match getEvt entity check with
    | .error _ => ([Effect.storeGetEvent entity check], .error .internalErr)
    | .ok none => ([Effect.storeGetEvent entity check], .error .notFound)
    | .ok (some ev) => ([Effect.storeGetEvent entity check], .ok ev)

/-- Embeds EventController.Delete of src/unnamed/part_001. The lookup
is as in Get; deleteErr is the outcome of DeleteEventByEntityCheck,
which runs only when the lookup found the event. -/
def EventControllerDelete (getEvt : String → String → Except GoError (Option Event))
    (deleteErr : Option GoError) (entity check : String) :
    List Effect × Option ActionErrCode :=
  if entity = "" ∨ check = "" then ([], some .invalidArgument)
  else
    match getEvt entity check with
    | .error _ => ([Effect.storeGetEvent entity check], some .internalErr)
    | .ok none => ([Effect.storeGetEvent entity check], some .notFound)
    | .ok (some _) =>
      ([Effect.storeGetEvent entity check, Effect.storeDeleteEvent entity check],
       match deleteErr with
       | some _ => some .internalErr
       | none => none)

/-- Embeds EventController.CreateOrReplace of src/unnamed/part_001:
validate the event, then publish it to TopicEventRaw; the store is
never touched. The outcome of the bus publish is the publishErr
parameter. -/
def EventControllerCreateOrReplace (publishErr : Option GoError) (event : Event) :
    List Effect × Option ActionErrCode :=
  match event.Validate with
  | some _ => ([], some .invalidArgument)
  | none =>
    ([Effect.publish Topic.eventRaw event],
     match publishErr with
     | some _ => some .internalErr
     | none => none)

/-- The fields of corev2.Extension its Validate method reads, from
src/unnamed/part_000 (ObjectMeta flattened to name and namespace). -/
structure Extension where
  name : String
  url : String
  namespaceName : String
  deriving DecidableEq, Repr

/-- Embeds Extension.Validate of src/unnamed/part_000. ValidateName is
corev2 code not under src/ and is kept as a parameter. -/
def Extension.Validate (validateName : String → Option GoError) (e : Extension) :
    Option GoError :=
  match validateName e.name with
  | some err => some err
  | none =>
    if e.url = "" then some (.str "empty URL")
    else if e.namespaceName = "" then some (.str "empty namespace")
    else none

/-- The verified claims the authorizer receives: subject and groups. -/
structure Claims where
  subject : String
  groups : List String
  deriving DecidableEq, Repr

/-- The attributes derived from the request, input to the authorizer. -/
structure Attributes where
  verb : String
  apiGroup : String
  resource : String
  resourceName : String
  namespaceName : String
  user : Claims
  deriving DecidableEq, Repr

/-- An RBAC subject of a binding: a user or a group name. -/
structure Subject where
  type : String
  name : String
  deriving DecidableEq, Repr

/-- The role reference of a binding. -/
structure RoleRef where
  type : String
  name : String
  deriving DecidableEq, Repr

/-- An RBAC rule. Empty ResourceNames means all names. -/
structure Rule where
  verbs : List String
  resources : List String
  resourceNames : List String
  apiGroups : List String
  deriving DecidableEq, Repr

/-- A namespaced Role. -/
structure Role where
  name : String
  namespaceName : String
  rules : List Rule
  deriving DecidableEq, Repr

/-- A cluster-scoped ClusterRole. -/
structure ClusterRole where
  name : String
  rules : List Rule
  deriving DecidableEq, Repr

/-- A namespaced RoleBinding. -/
structure RoleBinding where
  name : String
  namespaceName : String
  roleRef : RoleRef
  subjects : List Subject
  deriving DecidableEq, Repr

/-- A cluster-scoped ClusterRoleBinding. -/
structure ClusterRoleBinding where
  name : String
  roleRef : RoleRef
  subjects : List Subject
  deriving DecidableEq, Repr

/-- The store snapshot the authorizer evaluates over. -/
structure RBACStore where
  clusterRoleBindings : List ClusterRoleBinding
  roleBindings : List RoleBinding
  clusterRoles : List ClusterRole
  roles : List Role
  deriving DecidableEq, Repr

/-- Modelled from the spec: subject matching of the rbac authorizer,
which is not under src/. A binding subject matches when it names the
user, or a group the user belongs to. -/
def subjectMatches (claims : Claims) (s : Subject) : Bool :=
  (s.type == "User" && s.name == claims.subject) ||
    (s.type == "Group" && claims.groups.contains s.name)

/-- Modelled from the spec: a rule allows the attributes when the verb
and resource match exactly or by wildcard, the resource names list is
empty or matches, and the api groups list is empty or matches. -/
def ruleAllows (a : Attributes) (r : Rule) : Bool :=
  (r.verbs.contains a.verb || r.verbs.contains "*") &&
  (r.resources.contains a.resource || r.resources.contains "*") &&
  (r.resourceNames.isEmpty || r.resourceNames.contains "*" ||
     r.resourceNames.contains a.resourceName) &&
  (r.apiGroups.isEmpty || r.apiGroups.contains "*" || r.apiGroups.contains a.apiGroup)

/-- Looks up a ClusterRole by name in the store snapshot. -/
def findClusterRole (st : RBACStore) (name : String) : Option ClusterRole :=
  st.clusterRoles.find? (fun r => r.name == name)

/-- Looks up a Role by namespace and name in the store snapshot. -/
def findRole (st : RBACStore) (ns name : String) : Option Role :=
  st.roles.find? (fun r => r.namespaceName == ns && r.name == name)

/-- Modelled from the spec: a ClusterRoleBinding may reference only a
ClusterRole; a failed resolution skips the binding. -/
def resolveRoleRefCRB (st : RBACStore) (ref : RoleRef) : Option (List Rule) :=
  if ref.type == "ClusterRole" then (findClusterRole st ref.name).map (fun r => r.rules)
  else none

/-- Modelled from the spec: a RoleBinding may reference a ClusterRole,
or a Role in its own namespace; a failed resolution skips the
binding. -/
def resolveRoleRefRB (st : RBACStore) (ns : String) (ref : RoleRef) : Option (List Rule) :=
  if ref.type == "ClusterRole" then (findClusterRole st ref.name).map (fun r => r.rules)
  else if ref.type == "Role" then (findRole st ns ref.name).map (fun r => r.rules)
  else none

/-- Modelled from the spec: the rbac authorizer, which is not under
src/ (only the middleware test exercising it is). ClusterRoleBindings
are evaluated first, then the RoleBindings of the request namespace
when it is not empty; the request is allowed iff some rule of some
resolved role of some binding whose subjects match the user allows
the attributes. -/
def authorize (st : RBACStore) (a : Attributes) : Bool :=
  let crbRules :=
    (st.clusterRoleBindings.filter (fun b => b.subjects.any (subjectMatches a.user))).filterMap
      (fun b => resolveRoleRefCRB st b.roleRef)
  let rbs :=
    if a.namespaceName ≠ "" then
      st.roleBindings.filter (fun b => b.namespaceName == a.namespaceName)
    else []
  let rbRules :=
    (rbs.filter (fun b => b.subjects.any (subjectMatches a.user))).filterMap
      (fun b => resolveRoleRefRB st b.namespaceName b.roleRef)
  (crbRules ++ rbRules).any (fun rules => rules.any (ruleAllows a))

/-- C10: an Extension validates iff its Name passes ValidateName, its
URL is non-empty and its Namespace is non-empty; in particular an
empty URL or an empty Namespace is always rejected. -/
theorem C10_extension_validate_iff (validateName : String → Option GoError) (e : Extension) :
    Extension.Validate validateName e = none ↔
      validateName e.name = none ∧ e.url ≠ "" ∧ e.namespaceName ≠ "" := by
  unfold Extension.Validate
  cases h : validateName e.name with
  | some err => simp [h]
  | none =>
    simp only [h, true_and]
    split_ifs with h1 h2 <;> simp_all

/-- C8: CreateOrReplace never writes the store; a valid event is
published exactly once to TopicEventRaw and InternalErr is returned
iff that publish fails; an invalid event yields InvalidArgument and no
publish. -/
theorem C8_create_or_replace (publishErr : Option GoError) (event : Event) :
    (Event.Validate event = none →
      (EventControllerCreateOrReplace publishErr event).1 =
        [Effect.publish Topic.eventRaw event] ∧
      ((EventControllerCreateOrReplace publishErr event).2 = some ActionErrCode.internalErr ↔
        publishErr ≠ none)) ∧
    (∀ e, Event.Validate event = some e →
      (EventControllerCreateOrReplace publishErr event).1 = [] ∧
      (EventControllerCreateOrReplace publishErr event).2 = some ActionErrCode.invalidArgument) ∧
    (∀ eff ∈ (EventControllerCreateOrReplace publishErr event).1, eff.isStoreWrite = false) := by
  unfold EventControllerCreateOrReplace
  refine ⟨?_, ?_, ?_⟩
  · intro hv
    rw [hv]
    cases publishErr <;> simp
  · intro e he
    rw [he]
    simp
  · intro eff heff
    cases hv : Event.Validate event <;> rw [hv] at heff <;> simp at heff
    subst heff
    rfl

def c8Event : Event :=
  { entity := some { name := "srv-1", subscriptions := ["linux"] },
    timestamp := 1700000000, check := some { proxyEntityName := "" }, hasMetrics := false }

/-- C8 witness: the valid fixture event is published exactly once with
no error when the bus publish succeeds. -/
theorem C8_create_or_replace_witness :
    (EventControllerCreateOrReplace none c8Event).1 =
      [Effect.publish Topic.eventRaw c8Event] ∧
    ¬ ((EventControllerCreateOrReplace none c8Event).2 = some ActionErrCode.internalErr) := by
  have h := (C8_create_or_replace none c8Event).1 (by decide)
  exact ⟨h.1, fun hc => (h.2.mp hc) rfl⟩

/-- C9: Get and Delete reject an empty entity or check name with
InvalidArgument before any store call, return NotFound when the lookup
finds nothing without erring, and Delete only deletes after the lookup
found the event. -/
theorem C9_get_delete (getEvt : String → String → Except GoError (Option Event))
    (deleteErr : Option GoError) (entity check : String) :
    ((entity = "" ∨ check = "") →
      EventControllerGet getEvt entity check = ([], .error .invalidArgument) ∧
      EventControllerDelete getEvt deleteErr entity check = ([], some .invalidArgument)) ∧
    (¬ (entity = "" ∨ check = "") → getEvt entity check = .ok none →
      (EventControllerGet getEvt entity check).2 = .error .notFound ∧
      (EventControllerDelete getEvt deleteErr entity check).2 = some .notFound) ∧
    (∀ e c, Effect.storeDeleteEvent e c ∈ (EventControllerDelete getEvt deleteErr entity check).1 →
      e = entity ∧ c = check ∧ ∃ ev, getEvt entity check = .ok (some ev)) := by
  unfold EventControllerGet EventControllerDelete
  refine ⟨?_, ?_, ?_⟩
  · intro h
    simp [h]
  · intro h hok
    simp [h, hok]
  · intro e c hmem
    by_cases h : entity = "" ∨ check = ""
    · simp [h] at hmem
    · simp only [h, if_neg] at hmem
      cases hg : getEvt entity check with
      | error err => rw [hg] at hmem; simp at hmem
      | ok o =>
        cases o with
        | none => rw [hg] at hmem; simp at hmem
        | some ev =>
          rw [hg] at hmem
          simp at hmem
          exact ⟨hmem.1, hmem.2, ev, rfl⟩

def c9GetEvt : String → String → Except GoError (Option Event) :=
  fun _ _ => .ok none

/-- C9 witness: with an empty entity name both operations reject with
InvalidArgument and no store call, and with non-empty names a miss
yields NotFound. -/
theorem C9_get_delete_witness :
    EventControllerGet c9GetEvt "" "disk" = ([], .error .invalidArgument) ∧
    EventControllerDelete c9GetEvt none "" "disk" = ([], some .invalidArgument) ∧
    (EventControllerGet c9GetEvt "srv-1" "disk").2 = .error .notFound ∧
    (EventControllerDelete c9GetEvt none "srv-1" "disk").2 = some .notFound := by
  have h1 := (C9_get_delete c9GetEvt none "" "disk").1 (by left; rfl)
  have h2 := (C9_get_delete c9GetEvt none "srv-1" "disk").2.1 (by simp) rfl
  exact ⟨h1.1, h1.2, h2.1, h2.2⟩

/-- Preservation half of the entity subscription append: no existing
subscription is dropped. -/
theorem addEntitySubscription_preserves (name : String) (subs : List String) :
    subs ⊆ addEntitySubscription name subs := by
  unfold addEntitySubscription
  split_ifs
  · exact fun _ h => h
  · exact List.subset_append_left _ _

/-- Membership half of the entity subscription append: the implicit
entity subscription is always present afterwards. -/
theorem addEntitySubscription_mem (name : String) (subs : List String) :
    getEntitySubscription name ∈ addEntitySubscription name subs := by
  unfold addEntitySubscription
  split_ifs with h
  · exact h
  · simp

/-- C2 amended: handleKeepalive returns an error and publishes nothing
when decoding fails, when the decoded event has no entity, or when its
timestamp equals 0; any decoded event with a non-nil entity and a
timestamp different from 0 (negative included) is published exactly
once to TopicKeepalive. -/
theorem C2_keepalive_gate (unmarshal : List Nat → Except GoError Event)
    (publishErr : Option GoError) (payload : List Nat) :
    (∀ e, unmarshal payload = .error e →
      handleKeepalive unmarshal publishErr payload = ([], some e)) ∧
    (∀ ev, unmarshal payload = .ok ev → ev.entity = none →
      handleKeepalive unmarshal publishErr payload =
        ([], some (.str "keepalive does not contain an entity"))) ∧
    (∀ ev ent, unmarshal payload = .ok ev → ev.entity = some ent → ev.timestamp = 0 →
      handleKeepalive unmarshal publishErr payload =
        ([], some (.str "keepalive contains invalid timestamp"))) ∧
    (∀ ev ent, unmarshal payload = .ok ev → ev.entity = some ent → ev.timestamp ≠ 0 →
      (handleKeepalive unmarshal publishErr payload).1 =
        [Effect.publish Topic.keepalive (withEntitySubscription ev)] ∧
      (handleKeepalive unmarshal publishErr payload).2 = publishErr) := by
  refine ⟨?_, ?_, ?_, ?_⟩
  · intro e he
    simp [handleKeepalive, he]
  · intro ev he hent
    simp [handleKeepalive, he, hent]
  · intro ev ent he hent hts
    simp [handleKeepalive, he, hent, hts]
  · intro ev ent he hent hts
    simp [handleKeepalive, he, hent, hts, withEntitySubscription]

def c2Event : Event :=
  { entity := some { name := "srv-1", subscriptions := ["linux"] },
    timestamp := -1, check := none, hasMetrics := false }

def c2Unmarshal : List Nat → Except GoError Event := fun _ => .ok c2Event

/-- C2 counterexample: a decoded keepalive with a negative timestamp
(which is not greater than 0) is not rejected: handleKeepalive returns
no error and publishes it, against the claim that every timestamp not
greater than 0 yields an error and no publish. A JSON payload with a
timestamp field of -1 decodes to exactly this event. -/
theorem C2_counterexample :
    c2Unmarshal [] = .ok c2Event ∧
    c2Event.entity.isSome = true ∧
    ¬ (0 < c2Event.timestamp) ∧
    (handleKeepalive c2Unmarshal none []).2 = none ∧
    (handleKeepalive c2Unmarshal none []).1 ≠ [] :=
  ⟨rfl, rfl, by decide, by decide, by decide⟩

/-- C2 witness: a decoded keepalive with a zero timestamp is rejected
with an error and no publish, and one with a positive timestamp is
published exactly once. -/
theorem C2_keepalive_gate_witness :
    handleKeepalive (fun _ => .ok { c2Event with timestamp := 0 }) none [] =
      ([], some (.str "keepalive contains invalid timestamp")) ∧
    (handleKeepalive (fun _ => .ok { c2Event with timestamp := 1700000000 }) none []).1 =
      [Effect.publish Topic.keepalive
        (withEntitySubscription { c2Event with timestamp := 1700000000 })] := by
  have h0 := (C2_keepalive_gate (fun _ => .ok { c2Event with timestamp := 0 }) none []).2.2.1
    { c2Event with timestamp := 0 } { name := "srv-1", subscriptions := ["linux"] }
    rfl rfl rfl
  have h1 := (C2_keepalive_gate (fun _ => .ok { c2Event with timestamp := 1700000000 }) none []).2.2.2
    { c2Event with timestamp := 1700000000 } { name := "srv-1", subscriptions := ["linux"] }
    rfl rfl (by decide)
  exact ⟨h0, h1.1⟩

/-- Validity of an event implies its entity is non-nil. -/
theorem validate_entity_isSome (e : Event) (h : e.Validate = none) : e.entity.isSome := by
  cases he : e.entity with
  | none => simp [Event.Validate, he] at h
  | some ent => rfl

/-- Proxy resolution never erases the entity of an event that had
one. -/
theorem getProxyEntity_isSome (getEntity : String → Except GoError (Option Entity))
    (ev ev2 : Event) (hs : ev.entity.isSome)
    (h : getProxyEntity getEntity ev = .ok ev2) : ev2.entity.isSome := by
  cases hc : ev.check with
  | none =>
    simp [getProxyEntity, hc] at h
    rw [← h]
    exact hs
  | some c =>
    by_cases hp : c.proxyEntityName = ""
    · simp [getProxyEntity, hc, hp] at h
      rw [← h]
      exact hs
    · cases hg : getEntity c.proxyEntityName with
      | error e => simp [getProxyEntity, hc, hp, hg] at h
      | ok o =>
        cases o with
        | some proxy =>
          simp [getProxyEntity, hc, hp, hg] at h
          rw [← h]
          rfl
        | none =>
          simp [getProxyEntity, hc, hp, hg] at h
          rw [← h]
          rfl

/-- C1 amended: every event published by handleKeepalive to
TopicKeepalive and by handleEvent to TopicEventRaw carries a non-nil
entity whose subscriptions contain the implicit entity subscription,
appended only if absent, and all subscriptions of the entity being
published are preserved. For handleKeepalive that entity is the decoded
payload entity, so every payload subscription survives; for handleEvent
it is the entity left after the optional proxy substitution, whose
subscriptions may differ from the payload ones. -/
theorem C1_published_entity_subscription (unmarshal : List Nat → Except GoError Event)
    (getEntity : String → Except GoError (Option Entity))
    (publishErr : Option GoError) (payload : List Nat) :
    (∀ t ev, Effect.publish t ev ∈ (handleKeepalive unmarshal publishErr payload).1 →
      t = Topic.keepalive ∧
      ∃ evIn entIn, unmarshal payload = .ok evIn ∧ evIn.entity = some entIn ∧
        ev.entity = some { entIn with
          subscriptions := addEntitySubscription entIn.name entIn.subscriptions }) ∧
    (∀ t ev, Effect.publish t ev ∈ (handleEvent unmarshal getEntity publishErr payload).1 →
      t = Topic.eventRaw ∧
      ∃ evIn ev2 ent2, unmarshal payload = .ok evIn ∧
        (if evIn.HasCheck then getProxyEntity getEntity evIn else .ok evIn) = .ok ev2 ∧
        ev2.entity = some ent2 ∧
        ev.entity = some { ent2 with
          subscriptions := addEntitySubscription ent2.name ent2.subscriptions }) ∧
    (∀ t ev ent, Effect.publish t ev ∈ (handleKeepalive unmarshal publishErr payload).1 ∨
        Effect.publish t ev ∈ (handleEvent unmarshal getEntity publishErr payload).1 →
      ev.entity = some ent → getEntitySubscription ent.name ∈ ent.subscriptions) := by
  have hka : ∀ t ev, Effect.publish t ev ∈ (handleKeepalive unmarshal publishErr payload).1 →
      t = Topic.keepalive ∧
      ∃ evIn entIn, unmarshal payload = .ok evIn ∧ evIn.entity = some entIn ∧
        ev.entity = some { entIn with
          subscriptions := addEntitySubscription entIn.name entIn.subscriptions } := by
    intro t ev hmem
    cases hu : unmarshal payload with
    | error e => simp [handleKeepalive, hu] at hmem
    | ok evIn =>
      cases hent : evIn.entity with
      | none => simp [handleKeepalive, hu, hent] at hmem
      | some entIn =>
        by_cases hts : evIn.timestamp = 0
        · simp [handleKeepalive, hu, hent, hts] at hmem
        · simp [handleKeepalive, hu, hent, hts] at hmem
          exact ⟨hmem.1, evIn, entIn, rfl, hent, by rw [hmem.2]⟩
  have hev : ∀ t ev, Effect.publish t ev ∈ (handleEvent unmarshal getEntity publishErr payload).1 →
      t = Topic.eventRaw ∧
      ∃ evIn ev2 ent2, unmarshal payload = .ok evIn ∧
        (if evIn.HasCheck then getProxyEntity getEntity evIn else .ok evIn) = .ok ev2 ∧
        ev2.entity = some ent2 ∧
        ev.entity = some { ent2 with
          subscriptions := addEntitySubscription ent2.name ent2.subscriptions } := by
    intro t ev hmem
    cases hu : unmarshal payload with
    | error e => simp [handleEvent, hu] at hmem
    | ok evIn =>
      cases hv : evIn.Validate with
      | some e => simp [handleEvent, hu, hv] at hmem
      | none =>
        cases hp : (if evIn.HasCheck then getProxyEntity getEntity evIn else .ok evIn) with
        | error e => simp [handleEvent, hu, hv, hp] at hmem
        | ok ev2 =>
          simp [handleEvent, hu, hv, hp] at hmem
          have hs2 : ev2.entity.isSome := by
            by_cases hc : evIn.HasCheck
            · rw [if_pos hc] at hp
              exact getProxyEntity_isSome getEntity evIn ev2 (validate_entity_isSome evIn hv) hp
            · rw [if_neg hc] at hp
              cases hp
              exact validate_entity_isSome evIn hv
          cases hent2 : ev2.entity with
          | none => simp [hent2] at hs2
          | some ent2 =>
            refine ⟨hmem.1, evIn, ev2, ent2, rfl, hp, hent2, ?_⟩
            rw [hmem.2]
            simp [withEntitySubscription, hent2]
  refine ⟨hka, hev, ?_⟩
  intro t ev ent hmem hent
  cases hmem with
  | inl h =>
    obtain ⟨-, evIn, entIn, -, -, heq⟩ := hka t ev h
    rw [hent] at heq
    cases heq
    exact addEntitySubscription_mem entIn.name entIn.subscriptions
  | inr h =>
    obtain ⟨-, evIn, ev2, ent2, -, -, -, heq⟩ := hev t ev h
    rw [hent] at heq
    cases heq
    exact addEntitySubscription_mem ent2.name ent2.subscriptions

def c1Incoming : Event :=
  { entity := some { name := "srv-1", subscriptions := ["linux"] },
    timestamp := 1700000000, check := some { proxyEntityName := "web" }, hasMetrics := false }

def c1Unmarshal : List Nat → Except GoError Event := fun _ => .ok c1Incoming

def c1GetEntity : String → Except GoError (Option Entity) :=
  fun _ => .ok (some { name := "web", subscriptions := [] })

def c1Published : Event :=
  { entity := some { name := "web", subscriptions := ["entity:web"] },
    timestamp := 1700000000, check := some { proxyEntityName := "web" }, hasMetrics := false }

/-- C1 counterexample: a valid event whose check carries a
ProxyEntityName makes handleEvent substitute the stored proxy entity
before publishing, so the subscription linux present in the incoming
payload is gone from the published event, against the claim that every
incoming subscription is still present. -/
theorem C1_counterexample :
    c1Unmarshal [0] = .ok c1Incoming ∧
    c1Incoming.entity = some { name := "srv-1", subscriptions := ["linux"] } ∧
    (handleEvent c1Unmarshal c1GetEntity none [0]).1 =
      [Effect.publish Topic.eventRaw c1Published] ∧
    c1Published.entity = some { name := "web", subscriptions := ["entity:web"] } ∧
    "linux" ∉ ["entity:web"] :=
  ⟨rfl, rfl, by decide, rfl, by decide⟩

/-- C1 witness: in the keepalive handler the decoded entity keeps its
payload subscriptions and gains the implicit entity subscription. -/
theorem C1_published_entity_subscription_witness :
    ∃ ent, (Effect.publish Topic.keepalive (withEntitySubscription c2Event) ∈
        (handleKeepalive c2Unmarshal none []).1) ∧
      (withEntitySubscription c2Event).entity = some ent ∧
      getEntitySubscription ent.name ∈ ent.subscriptions := by
  refine ⟨{ name := "srv-1", subscriptions := ["linux", "entity:srv-1"] }, by decide, by decide, ?_⟩
  exact (C1_published_entity_subscription c2Unmarshal c1GetEntity none []).2.2
    Topic.keepalive (withEntitySubscription c2Event)
    { name := "srv-1", subscriptions := ["linux", "entity:srv-1"] }
    (Or.inl (by decide)) (by decide)

/-- The session state after a successful Stop: stopping and check
channels closed, subscription handles drained. -/
def stoppedOf (s : Session) : Session :=
  { s with stoppingClosed := true, checkChannelClosed := true, pendingSubscriptions := [] }

/-- C3 amended: the first Stop on a running session succeeds and
performs the teardown; a second Stop panics closing the already closed
stopping channel, so Stop is not idempotent; the code avoids the double
call from the receive pump by checking the stopping signal before
invoking Stop in its deferred teardown. -/
theorem C3_stop_not_idempotent (s : Session) (h : s.stoppingClosed = false) :
    Session.Stop s = .ok (stoppedOf s, stopEffects s.cfg s.pendingSubscriptions) ∧
    Session.Stop (stoppedOf s) = .error Panic.closeOfClosedChannel ∧
    recvPumpTeardown (stoppedOf s) = .ok (stoppedOf s, []) := by
  unfold Session.Stop recvPumpTeardown stoppedOf
  simp [h]

def c3Cfg : SessionConfig :=
  { contentType := "application/json", namespaceName := "default",
    agentAddr := "10.0.0.1:8081", agentName := "agent-1", user := "agent",
    subscriptions := ["linux"] }

def c3Fresh : Session :=
  { cfg := c3Cfg, stoppingClosed := false, checkChannelClosed := false,
    pendingSubscriptions := [("default/linux", "default:agent-1")] }

/-- C3 counterexample: on a session whose first Stop has returned, a
second Stop does not return normally: it panics on the close of the
already closed stopping channel, against the claim that a second call
returns without panicking. -/
theorem C3_counterexample :
    ∃ s2 effs, Session.Stop c3Fresh = .ok (s2, effs) ∧
      Session.Stop s2 = .error Panic.closeOfClosedChannel :=
  ⟨stoppedOf c3Fresh, stopEffects c3Cfg c3Fresh.pendingSubscriptions, rfl, rfl⟩

/-- C3 witness: the amended statement applied to the fixture session. -/
theorem C3_stop_not_idempotent_witness :
    Session.Stop c3Fresh =
      .ok (stoppedOf c3Fresh, stopEffects c3Cfg c3Fresh.pendingSubscriptions) ∧
    Session.Stop (stoppedOf c3Fresh) = .error Panic.closeOfClosedChannel ∧
    recvPumpTeardown (stoppedOf c3Fresh) = .ok (stoppedOf c3Fresh, []) :=
  C3_stop_not_idempotent c3Fresh rfl

/-- C4 amended: NewSession returns a non-nil error exactly when the
store lookup of the namespace errors (a missing namespace included,
assuming the store reports it as an error), but the error it returns is
a fresh formatted string error wrapping the message of the store error:
the kind of the store error, NotFound included, is not preserved. -/
theorem C4_new_session_errors (getNamespace : String → Except GoError Unit)
    (cfg : SessionConfig) :
    (∀ e, getNamespace cfg.namespaceName = .error e →
      (NewSession getNamespace cfg).1 =
        .error (.str ("could not retrieve the namespace " ++ cfg.namespaceName ++ ": " ++
          e.Error))) ∧
    (∀ u, getNamespace cfg.namespaceName = .ok u →
      ∃ s, (NewSession getNamespace cfg).1 = .ok s) ∧
    (∀ e err, getNamespace cfg.namespaceName = .error e →
      (NewSession getNamespace cfg).1 = .error err → ∀ k, err.isKind k = false) := by
  refine ⟨?_, ?_, ?_⟩
  · intro e he
    simp [NewSession, he]
  · intro u hu
    refine ⟨{ cfg := cfg, stoppingClosed := false, checkChannelClosed := false, pendingSubscriptions := [] }, ?_⟩
    simp [NewSession, hu]
  · intro e err he herr k
    simp [NewSession, he] at herr
    rw [← herr]
    rfl

def c4GetNamespace : String → Except GoError Unit :=
  fun _ => .error (.kind .notFound "namespace ghost does not exist")

def c4Cfg : SessionConfig :=
  { contentType := "application/json", namespaceName := "ghost",
    agentAddr := "10.0.0.1:8081", agentName := "agent-1", user := "agent",
    subscriptions := [] }

/-- C4 counterexample: when the store reports the missing namespace
with a NotFound error, the error NewSession returns is a plain string
error that no longer carries the NotFound kind, against the claim that
the error kind is preserved. -/
theorem C4_counterexample :
    c4GetNamespace "ghost" = .error (.kind ErrKind.notFound "namespace ghost does not exist") ∧
    ∃ err, (NewSession c4GetNamespace c4Cfg).1 = .error err ∧
      err.isKind ErrKind.notFound = false ∧
      err = .str "could not retrieve the namespace ghost: namespace ghost does not exist" :=
  ⟨rfl, .str "could not retrieve the namespace ghost: namespace ghost does not exist",
    rfl, rfl, rfl⟩

/-- C4 witness: the amended statement applied to the fixture store and
configuration. -/
theorem C4_new_session_errors_witness :
    (NewSession c4GetNamespace c4Cfg).1 =
      .error (.str ("could not retrieve the namespace ghost: namespace ghost does not exist")) :=
  (C4_new_session_errors c4GetNamespace c4Cfg).1
    (.kind .notFound "namespace ghost does not exist") rfl

/-- C5: a failing NewSession has performed nothing but the namespace
store read: no pump goroutine, no bus subscription, no ring insertion,
no transport close, no gauge increment, no publish. -/
theorem C5_new_session_failure_frame (getNamespace : String → Except GoError Unit)
    (cfg : SessionConfig) (err : GoError)
    (_h : (NewSession getNamespace cfg).1 = .error err) :
    (NewSession getNamespace cfg).2 = [Effect.storeGetNamespace cfg.namespaceName] ∧
    ∀ eff ∈ (NewSession getNamespace cfg).2,
      (∀ t c, eff ≠ Effect.busSubscribe t c) ∧
      (∀ p v, eff ≠ Effect.ringAdd p v) ∧
      eff ≠ Effect.connClose ∧
      (∀ n, eff ≠ Effect.gaugeInc n) ∧
      eff ≠ Effect.spawnPump ∧
      eff.isPublish = false := by
  have htrace : (NewSession getNamespace cfg).2 = [Effect.storeGetNamespace cfg.namespaceName] := by
    unfold NewSession
    cases getNamespace cfg.namespaceName <;> rfl
  refine ⟨htrace, ?_⟩
  intro eff heff
  rw [htrace] at heff
  simp at heff
  subst heff
  refine ⟨?_, ?_, ?_, ?_, ?_, rfl⟩ <;> intros <;> intro hc <;> cases hc

/-- C5 witness: the frame condition applied to the fixture failing
construction. -/
theorem C5_new_session_failure_frame_witness :
    (NewSession c4GetNamespace c4Cfg).2 = [Effect.storeGetNamespace "ghost"] :=
  (C5_new_session_failure_frame c4GetNamespace c4Cfg
    (.str "could not retrieve the namespace ghost: namespace ghost does not exist") rfl).1

/-- A single effect that is not an insertion of the value at the path
never makes the value a member of the ring at that path. -/
theorem ringApply_not_mem (eff : Effect) (r : RingState) (p v : String)
    (hv : v ∉ r p) (h : eff ≠ Effect.ringAdd p v) : v ∉ ringApply eff r p := by
  cases eff with
  | ringRemove q w =>
    simp only [ringApply]
    split_ifs with hq
    · intro hmem
      exact hv (List.mem_of_mem_filter hmem)
    · exact hv
  | ringAdd q w =>
    simp only [ringApply]
    split_ifs with hq
    · intro hmem
      rcases List.mem_append.mp hmem with h1 | h1
      · exact hv h1
      · simp at h1
        subst h1
        subst hq
        exact h rfl
    · exact hv
  | publish t e => exact hv
  | connSend pl => exact hv
  | connClose => exact hv
  | busSubscribe t c => exact hv
  | busCancel t c => exact hv
  | gaugeInc n => exact hv
  | gaugeDec n => exact hv
  | closeCheckChannel => exact hv
  | spawnPump => exact hv
  | storeGetNamespace n => exact hv
  | storeGetEvent e c => exact hv
  | storeDeleteEvent e c => exact hv
  | storeWriteEvent e => exact hv

/-- A trace free of insertions of the value at the path preserves its
absence from the ring at that path. -/
theorem ringApplyAll_not_mem (effs : List Effect) (r : RingState) (p v : String)
    (hv : v ∉ r p) (h : Effect.ringAdd p v ∉ effs) : v ∉ ringApplyAll effs r p := by
  induction effs generalizing r with
  | nil => exact hv
  | cons e es ih =>
    have hs : ringApplyAll (e :: es) r = ringApplyAll es (ringApply e r) := rfl
    rw [hs]
    have hne : e ≠ Effect.ringAdd p v := fun hc => h (hc ▸ List.mem_cons_self e es)
    exact ih (ringApply e r) (ringApply_not_mem e r p v hv hne)
      (fun hc => h (List.mem_cons_of_mem e hc))

/-- Removing the value at the path leaves it outside the ring. -/
theorem ringApply_remove_not_mem (r : RingState) (p v : String) :
    v ∉ ringApply (Effect.ringRemove p v) r p := by
  simp [ringApply]

/-- A trace containing a removal of the value at the path and no
insertion of it there leaves the value outside the ring at that path. -/
theorem ringApplyAll_removed (effs : List Effect) (r : RingState) (p v : String) :
    Effect.ringRemove p v ∈ effs → Effect.ringAdd p v ∉ effs →
    v ∉ ringApplyAll effs r p := by
  induction effs generalizing r with
  | nil =>
    intro hmem _
    cases hmem
  | cons e es ih =>
    intro hmem hadd
    have hs : ringApplyAll (e :: es) r = ringApplyAll es (ringApply e r) := rfl
    rw [hs]
    have haddTail : Effect.ringAdd p v ∉ es := fun hc => hadd (List.mem_cons_of_mem e hc)
    rcases List.mem_cons.mp hmem with he | he
    · subst he
      exact ringApplyAll_not_mem es (ringApply (Effect.ringRemove p v) r) p v
        (ringApply_remove_not_mem r p v) haddTail
    · exact ih (ringApply e r) he haddTail

/-- The teardown trace of Stop contains no ring insertion at all. -/
theorem stopEffects_no_ringAdd (cfg : SessionConfig) (stashed : List (String × String))
    (p v : String) : Effect.ringAdd p v ∉ stopEffects cfg stashed := by
  intro hmem
  simp [stopEffects] at hmem

/-- C6: after Stop returns nothing is published any more: the whole
session trace is the handler effects of the frames received before the
stopping signal followed by the teardown effects, and the teardown
publishes nothing on the bus or the transport; the teardown invokes a
ring Remove of the agent at the path of every configured subscription,
so after the removals are applied the agent is in none of those
rings. -/
theorem C6_stop_quiescence (s : Session) (unmarshal : List Nat → Except GoError Event)
    (getEntity : String → Except GoError (Option Entity))
    (publishErr : Option GoError) (msgs : List Incoming) (stopAfter : Nat)
    (rings : RingState) (sub : String) (hsub : sub ∈ s.cfg.subscriptions) :
    sessionRun s unmarshal getEntity publishErr msgs stopAfter =
      ((msgs.take stopAfter).flatMap (handleMessage unmarshal getEntity publishErr)) ++
        stopEffects s.cfg s.pendingSubscriptions ∧
    (∀ eff ∈ stopEffects s.cfg s.pendingSubscriptions,
      eff.isPublish = false ∧ eff.isConnSend = false) ∧
    Effect.ringRemove (ringPath s.cfg.namespaceName sub) s.cfg.agentName ∈
      stopEffects s.cfg s.pendingSubscriptions ∧
    s.cfg.agentName ∉
      ringApplyAll (stopEffects s.cfg s.pendingSubscriptions) rings
        (ringPath s.cfg.namespaceName sub) := by
  have hmem : Effect.ringRemove (ringPath s.cfg.namespaceName sub) s.cfg.agentName ∈
      stopEffects s.cfg s.pendingSubscriptions := by
    simp [stopEffects]
    exact ⟨sub, hsub, rfl⟩
  refine ⟨rfl, ?_, hmem, ?_⟩
  · intro eff heff
    simp [stopEffects] at heff
    rcases heff with h | h | h | h
    · subst h
      exact ⟨rfl, rfl⟩
    · obtain ⟨a, b, -, hc⟩ := h
      rw [← hc]
      exact ⟨rfl, rfl⟩
    · subst h
      exact ⟨rfl, rfl⟩
    · obtain ⟨t, -, hc⟩ := h
      rw [← hc]
      exact ⟨rfl, rfl⟩
  · exact ringApplyAll_removed _ rings _ _ hmem
      (stopEffects_no_ringAdd s.cfg s.pendingSubscriptions _ _)

def c6Rings : RingState := fun _ => ["agent-1", "agent-2"]

/-- C6 witness: after the teardown of the fixture session is applied,
its agent is no longer a member of the ring of its subscription. -/
theorem C6_stop_quiescence_witness :
    Effect.ringRemove (ringPath "default" "linux") "agent-1" ∈
      stopEffects c3Cfg c3Fresh.pendingSubscriptions ∧
    "agent-1" ∉
      ringApplyAll (stopEffects c3Cfg c3Fresh.pendingSubscriptions) c6Rings
        (ringPath "default" "linux") := by
  have h := C6_stop_quiescence c3Fresh (fun _ => .error (.str "eof"))
    (fun _ => .ok none) none [] 0 c6Rings "linux" (by decide)
  exact ⟨h.2.2.1, h.2.2.2⟩

/-- The foo-viewer Role seeded by the middleware test: one rule
granting the get verb on the checks resource, restricted to the given
resource names. -/
def fooViewerRole (rns : List String) : Role :=
  { name := "foo-viewer", namespaceName := "default",
    rules := [{ verbs := ["get"], resources := ["checks"], resourceNames := rns,
                apiGroups := [] }] }

/-- The foo-viewer RoleBinding seeded by the middleware test, binding
the role to the foo-viewers group in the default namespace. -/
def fooViewerBinding : RoleBinding :=
  { name := "foo-viewer", namespaceName := "default",
    roleRef := { type := "Role", name := "foo-viewer" },
    subjects := [{ type := "Group", name := "foo-viewers" }] }

/-- A store snapshot where the only binding matching the requester is
the foo-viewer one, as in the test. -/
def fooStore (rns : List String) : RBACStore :=
  { clusterRoleBindings := [], roleBindings := [fooViewerBinding],
    clusterRoles := [], roles := [fooViewerRole rns] }

/-- The attributes of a GET on checks in the default namespace by the
test user foo of group foo-viewers; a list request carries an empty
resource name. -/
def checkAttrs (name : String) : Attributes :=
  { verb := "get", apiGroup := "core", resource := "checks", resourceName := name,
    namespaceName := "default", user := { subject := "foo", groups := ["foo-viewers"] } }

/-- C7: when the only matching binding resolves to a role whose rule
carries a non-empty ResourceNames list, the request is allowed iff its
resource name is in the list or the list contains the wildcard; with
ResourceNames restricted to foo, the get of the foo check is allowed,
the get of the bar check is denied, and the list request with its empty
resource name is denied. -/
theorem C7_resource_names_scoping (rns : List String) (h : rns ≠ []) (name : String) :
    (authorize (fooStore rns) (checkAttrs name) = true ↔ name ∈ rns ∨ "*" ∈ rns) ∧
    authorize (fooStore ["foo"]) (checkAttrs "foo") = true ∧
    authorize (fooStore ["foo"]) (checkAttrs "bar") = false ∧
    authorize (fooStore ["foo"]) (checkAttrs "") = false := by
  refine ⟨?_, by decide, by decide, by decide⟩
  simp [authorize, fooStore, fooViewerBinding, fooViewerRole, checkAttrs, subjectMatches,
    resolveRoleRefRB, resolveRoleRefCRB, findRole, findClusterRole, ruleAllows]
  simp [h]
  exact Or.comm

/-- C7 witness: the scoping applied at the concrete list of the test,
allowing only the check named foo. -/
theorem C7_resource_names_scoping_witness :
    (authorize (fooStore ["foo"]) (checkAttrs "foo") = true ↔
      "foo" ∈ ["foo"] ∨ "*" ∈ ["foo"]) ∧
    authorize (fooStore ["foo"]) (checkAttrs "bar") = false :=
  ⟨(C7_resource_names_scoping ["foo"] (by decide) "foo").1,
   (C7_resource_names_scoping ["foo"] (by decide) "bar").2.2.1⟩

end SensuGo
